import Mathlib

/-!
A shallow embedding of the ampd asynchronous MPD client library: the wire
codec and request variants of `src/ampd/request.py`, the exception taxonomy
of `src/ampd/errors.py`, and the connection state machine, executor tree and
idle/noidle scheduling of `src/ampd/client.py` together with the later
revision of the client module kept under `src/src/ampd/client.py`.
Python functions become executable Lean definitions; stateful methods become
explicit state passing over small state structures.
-/

set_option maxRecDepth 10000

namespace Ampd

/-- Characters of a Python string. -/
abbrev Chars := List Char

/-- Character list of a string literal. -/
def cs (s : String) : Chars := s.toList

/-- Left brace character (written via its code point). -/
def lbraceC : Char := Char.ofNat 123

/-- Right brace character (written via its code point). -/
def rbraceC : Char := Char.ofNat 125

/-- Fields of `errors.ReplyError`: server error code, the failing index
within a command list as reported in the ACK line, the offending command
name, the message, and the client-side command line. -/
structure ReplyErr where
  error : Nat
  command_list_num : Nat
  command : Chars
  message : Chars
  commandline : Chars
deriving DecidableEq

/-- The exception taxonomy of `src/ampd/errors.py`. -/
inductive AmpdE where
  | connectionError
  | replyError (e : ReplyErr)
  | protocolError
  | commandError
deriving DecidableEq

/-- Settled outcomes of an `asyncio.Future`. -/
inductive ROutcome where
  | val (v : Nat)
  | exc (e : AmpdE)
  | cancelled
deriving DecidableEq

/-- Embedding of `request.Request` seen as a future: an id standing for object identity
and the settled outcome, `none` while pending. -/
structure Req where
  rid : Nat
  outcome : Option ROutcome
deriving DecidableEq

/-- Embedding of `Future.done`. -/
def Req.done (r : Req) : Bool := r.outcome.isSome

/-- Embedding of `Request.set_result` (`src/ampd/request.py` lines 197-200): the result is
set only when the future is not yet done; otherwise nothing happens. -/
def Req.set_result (r : Req) (v : Nat) : Req :=
  if r.done then r else { r with outcome := some (.val v) }

/-- Embedding of `set_exception` with `ConnectionError`, guarded by `done`, as
in `Executor.close` and `Client.disconnect_from_server` of the later client
revision (`src/src/ampd/client.py`). -/
def failReq (r : Req) : Req :=
  if r.done then r else { r with outcome := some (.exc .connectionError) }

/-! Event bits of `request.Event` (`src/ampd/request.py` lines 311-328):
subsystem names get bits 0-11 in order, then CONNECT, IDLE, TIMEOUT. -/

def EVENT_DATABASE : Nat := 1
def EVENT_UPDATE : Nat := 2
def EVENT_PLAYER : Nat := 16
def EVENT_MIXER : Nat := 32
def EVENT_CONNECT : Nat := 4096
def EVENT_IDLE : Nat := 8192
def EVENT_TIMEOUT : Nat := 16384
def EVENT_ANY : Nat := 4095

/-! Connection state of `client.ClientState`: two flags and the four states
they form. -/

def FLAG_CONNECTED : Nat := 1
def FLAG_ACTIVE : Nat := 2
def STATE_DISCONNECTED : Nat := 0
def STATE_CONNECTING : Nat := FLAG_ACTIVE
def STATE_IDLE : Nat := FLAG_CONNECTED
def STATE_ACTIVE : Nat := FLAG_CONNECTED ||| FLAG_ACTIVE

/-! Disconnect reason codes of `client.Client`. -/

def DISCONNECT_NOT_CONNECTED : Nat := 0
def DISCONNECT_FAILED_CONNECT : Nat := 1
def DISCONNECT_ERROR : Nat := 2
def DISCONNECT_REQUESTED : Nat := 3
def DISCONNECT_RECONNECT : Nat := 4
def DISCONNECT_SHUTDOWN : Nat := 5
def DISCONNECT_PASSWORD : Nat := 6

/-- The connection-facing state of `client.Client`: the state flags, the
lines written to the wire in order, the in-flight queue `_active_queue`
(request ids in wire order), the log of resolutions (request id and reply
block, in resolution order), and `_waiting_list` (pending passive requests
as id and event mask). -/
structure ClientS where
  state : Nat
  wire : List Chars
  active_queue : List Nat
  resolved : List (Nat × List Chars)
  waiting_list : List (Nat × Nat)
deriving DecidableEq

/-- Embedding of `Client._send` (`src/src/ampd/client.py` lines 315-326, same logic at
`src/ampd/client.py` lines 313-325): raise `ConnectionError` when not
connected; an idle request clears FLAG_ACTIVE (`state &= ~FLAG_ACTIVE`,
which with the two flags keeps the CONNECTED bit); any other request sent
while FLAG_ACTIVE is clear first writes the line `noidle` and sets
FLAG_ACTIVE; then the command line is written and the request appended to
the in-flight queue. -/
def sendReq (isIdleReq : Bool) (cmd : Chars) (rid : Nat) (c : ClientS) :
    Except AmpdE ClientS :=
  if c.state &&& FLAG_CONNECTED = 0 then .error .connectionError
  else
    let c1 :=
      if isIdleReq then { c with state := c.state &&& FLAG_CONNECTED }
      else if c.state &&& FLAG_ACTIVE = 0 then
        { c with wire := c.wire ++ [cs "noidle"], state := c.state ||| FLAG_ACTIVE }
      else c
    .ok { c1 with wire := c1.wire ++ [cmd], active_queue := c1.active_queue ++ [rid] }

/-- Embedding of `Client._process_reply` (`src/ampd/client.py` lines 298-308) and
`Client.data_received` (`src/src/ampd/client.py` lines 298-310): a complete
reply block resolves the request at the head of the in-flight queue; with an
empty queue the client disconnects (`DISCONNECT_ERROR`).  The follow-up
`_idle_task` is a separately scheduled task whose eventual `idle` command is
represented by a further send operation. -/
def processReply (reply : List Chars) (c : ClientS) : ClientS :=
  match c.active_queue with
  | [] => { c with state := STATE_DISCONNECTED }
  | r :: rest => { c with active_queue := rest, resolved := c.resolved ++ [(r, reply)] }

/-- Operations interleaved on one connection: writing an active request, or
a complete reply block arriving from the server. -/
inductive COp where
  | send (isIdleReq : Bool) (cmd : Chars) (rid : Nat)
  | reply (block : List Chars)
deriving DecidableEq

/-- One step of the connection: a send that raises keeps the state (the
exception propagates to the caller), a reply block is processed. -/
def stepC (op : COp) (c : ClientS) : ClientS :=
  match op with
  | .send i cmd rid =>
    match sendReq i cmd rid c with
    | .ok c1 => c1
    | .error _ => c
  | .reply b => processReply b c

/-- Run a sequence of operations. -/
def runC : List COp → ClientS → ClientS
  | [], c => c
  | op :: ops, c => runC ops (stepC op c)

/-- Request ids appended to the wire by a run: a send writes its request
exactly when the CONNECTED flag is set at that moment. -/
def writtenIds : List COp → ClientS → List Nat
  | [], _ => []
  | op :: ops, c =>
    (match op with
     | .send _ _ rid => if c.state &&& FLAG_CONNECTED = 0 then [] else [rid]
     | .reply _ => []) ++ writtenIds ops (stepC op c)

/-- Embedding of `Client._current_events` (`src/ampd/client.py` lines 335-338): the IDLE
bit when the state is exactly Idle, the CONNECT bit whenever the CONNECTED
flag is set. -/
def currentEvents (state : Nat) : Nat :=
  (if state = STATE_IDLE then EVENT_IDLE else 0) |||
  (if state &&& FLAG_CONNECTED ≠ 0 then EVENT_CONNECT else 0)

/-- Embedding of `Client._wait` (`src/ampd/client.py` lines 327-333): a passive request
whose mask meets the current-state events is resolved at once with the
intersection; otherwise it joins the waiting list.  The wire is never
touched. -/
def waitOp (rid mask : Nat) (c : ClientS) : Option Nat × ClientS :=
  let e := currentEvents c.state &&& mask
  if e ≠ 0 then (some e, c)
  else (none, { c with waiting_list := c.waiting_list ++ [(rid, mask)] })

/-- Decidable equality for settled `Except` outcomes. -/
instance : DecidableEq (Except AmpdE Nat) := fun a b =>
  match a, b with
  | .ok x, .ok y => if h : x = y then .isTrue (by rw [h]) else .isFalse (by simp [h])
  | .error x, .error y => if h : x = y then .isTrue (by rw [h]) else .isFalse (by simp [h])
  | .ok _, .error _ => .isFalse (by simp)
  | .error _, .ok _ => .isFalse (by simp)

/-- The timer-relevant state of a `RequestPassive` awaited with a timeout
(`src/ampd/request.py` lines 354-368). -/
structure SubState where
  event_mask : Nat
  result : Option (Except AmpdE Nat)
  timerArmed : Bool
deriving DecidableEq

/-- Embedding of `RequestPassive.__await__` with a timeout: the timer is armed via
`call_later`, TIMEOUT is OR-ed into the mask, and the done callback
`_cancel_timeout` is registered. -/
def initP (mask : Nat) : SubState :=
  { event_mask := mask ||| EVENT_TIMEOUT, result := none, timerArmed := true }

/-- Resolution with a value: `set_result` is a no-op when done; completing
fires the done callback `_cancel_timeout`, which disarms the timer. -/
def setResultP (v : Nat) (s : SubState) : SubState :=
  if s.result.isSome then s else { s with result := some (.ok v), timerArmed := false }

/-- Exceptional resolution; completing likewise disarms the timer. -/
def setExcP (e : AmpdE) (s : SubState) : SubState :=
  if s.result.isSome then s else { s with result := some (.error e), timerArmed := false }

/-- Scheduler steps racing on one passive request: the timer firing, a
server notification, or an error resolution. -/
inductive PStep where
  | timerFire
  | notify (e : Nat)
  | fail (e : AmpdE)
deriving DecidableEq

/-- One scheduler step: the armed timer resolves with exactly the TIMEOUT
bit (`call_later(timeout, lambda: set_result(Event.TIMEOUT))`); a
notification resolves with the mask intersection when nonzero
(`Client._event`); an error resolves exceptionally. -/
def stepP (p : PStep) (s : SubState) : SubState :=
  match p with
  | .timerFire => if s.timerArmed then setResultP EVENT_TIMEOUT s else s
  | .notify e => if s.event_mask &&& e ≠ 0 then setResultP (s.event_mask &&& e) s else s
  | .fail er => setExcP er s

/-- Run a sequence of scheduler steps. -/
def runP : List PStep → SubState → SubState
  | [], s => s
  | p :: ps, s => runP ps (stepP p s)

/-- Steps that neither fire the timer, nor fail, nor match the (TIMEOUT
augmented) mask of the subscription. -/
def benignStep (mask : Nat) (p : PStep) : Bool :=
  match p with
  | .timerFire => false
  | .notify e => (mask ||| EVENT_TIMEOUT) &&& e == 0
  | .fail _ => false

/-- Strip a literal leading token; `none` when it does not match. -/
def dropPref : Chars → Chars → Option Chars
  | [], l => some l
  | _ :: _, [] => none
  | p :: ps, c :: rest => if c = p then dropPref ps rest else none

/-- Longest digit run at the head. -/
def spanDigits (l : Chars) : Chars × Chars := l.span Char.isDigit

/-- Value of a digit run. -/
def digitsToNat (l : Chars) : Nat :=
  l.foldl (fun a c => a * 10 + (c.toNat - 48)) 0

/-- Embedding of the match of a reply line against the anchored pattern
`ERROR_RE` of `src/ampd/request.py` line 32, that is `ACK`, a space, a
bracketed digits-at-digits group, a space, a braced command name free of
closing braces, a space, and the message: returns the error code, the
command number, the command name and the message. -/
def matchErrorRe (l : Chars) : Option (Nat × Nat × Chars × Chars) :=
  match dropPref (cs "ACK [") l with
  | none => none
  | some l1 =>
    let (d1, l2) := spanDigits l1
    if d1.isEmpty then none else
    match dropPref ['@'] l2 with
    | none => none
    | some l3 =>
      let (d2, l4) := spanDigits l3
      if d2.isEmpty then none else
      match dropPref (cs "] " ++ [lbraceC]) l4 with
      | none => none
      | some l5 =>
        let (cmd, l6) := l5.span (fun c => c != rbraceC)
        match dropPref [rbraceC, ' '] l6 with
        | none => none
        | some l7 => some (digitsToNat d1, digitsToNat d2, cmd, l7)

/-- Embedding of the split of a line at the first occurrence of the
two-character delimiter colon-space (`DELIM` of the source); `none` when
absent. -/
def splitField : Chars → Option (Chars × Chars)
  | [] => none
  | c :: rest =>
    if c = ':' ∧ rest.head? = some ' ' then some ([], rest.tail)
    else
      match splitField rest with
      | some (k, v) => some (c :: k, v)
      | none => none

/-- Replacement of hyphens by underscores in keys (`key.replace` of the
source), applied per character. -/
def normChar (c : Char) : Char := if c = '-' then '_' else c

/-- The field a payload line decodes to. -/
def decodeFieldLine (l : Chars) : Chars × Chars :=
  match splitField l with
  | some (k, v) => (k.map normChar, v)
  | none => ([], [])

def SUCCESS : Chars := cs "OK"
def LIST_SUCCESS : Chars := cs "list_OK"

/-- Embedding of the member parser of `RequestCommandLine` (`src/ampd/request.py` lines 259-273) run
over a list of reply lines: an ACK line resolves exceptionally with a
`ReplyError` carrying the groups of the match and the client command line;
the success token resolves with the accumulated fields; any other line
contributes a `key: value` field with `-` normalised to `_` in the key.
Returns the outcome and the unconsumed lines; `none` when the lines run out
or a field line is malformed. -/
def runCmdParser (success commandline : Chars) :
    List Chars → List (Chars × Chars) →
    Option (Except ReplyErr (List (Chars × Chars)) × List Chars)
  | [], _ => none
  | l :: rest, acc =>
    match matchErrorRe l with
    | some (e, n, cmd, msg) => some (.error ⟨e, n, cmd, msg, commandline⟩, rest)
    | none =>
      if l = success then some (.ok acc.reverse, rest)
      else
        match splitField l with
        | some (k, v) => runCmdParser success commandline rest ((k.map normChar, v) :: acc)
        | none => none

/-- Outcomes of a command-list batch. -/
inductive ListOutcome where
  | replyError (e : ReplyErr)
  | protocolError
  | listOk (results : List (List (Chars × Chars)))
  | pending
deriving DecidableEq

/-- Embedding of the batch parser of `RequestCommandList` (`src/ampd/request.py` lines 296-308):
member parsers run in order with `list_OK` as success token; the first
ReplyError of the first failing member fails the whole batch and no further member is
decoded; after all members one final `OK` is expected, anything else being a
protocol error.  The second component is the list of member results decoded
so far, in order. -/
def runListParser : List Chars → List Chars → List (List (Chars × Chars)) →
    ListOutcome × List (List (Chars × Chars))
  | [], lines, acc =>
    match lines with
    | [] => (.pending, acc.reverse)
    | l :: _ =>
      if l = SUCCESS then (.listOk acc.reverse, acc.reverse)
      else (.protocolError, acc.reverse)
  | cmd :: cmds, lines, acc =>
    match runCmdParser LIST_SUCCESS cmd lines [] with
    | some (.error e, _) => (.replyError e, acc.reverse)
    | some (.ok fields, rest) => runListParser cmds rest (fields :: acc)
    | none => (.pending, acc.reverse)

/-- Concatenation of lists. -/
def catLists : List (List α) → List α
  | [] => []
  | l :: ls => l ++ catLists ls

/-- The reply lines of the successful members of a batch: each payload
followed by the `list_OK` token. -/
def encodeMembers (payloads : List (List Chars)) : List Chars :=
  catLists (payloads.map (fun p => p ++ [LIST_SUCCESS]))

/-- A well-formed payload line of a batched reply: not an ACK line, not the
member success token, and containing the field delimiter. -/
def goodField (l : Chars) : Prop :=
  matchErrorRe l = none ∧ l ≠ LIST_SUCCESS ∧ (splitField l).isSome = true

instance (l : Chars) : Decidable (goodField l) := by
  unfold goodField; infer_instance

/-- Escaping of each internal double quote with a backslash (`arg.replace`
in `RequestCommand.__init__`, `src/ampd/request.py` line 277). -/
def escapeQuotes : Chars → Chars
  | [] => []
  | c :: rest =>
    if c = '"' then '\\' :: '"' :: escapeQuotes rest else c :: escapeQuotes rest

/-- The wire form of one string argument: the escaped text wrapped in double
quotes (`src/ampd/request.py` line 277). -/
def quoteArg (s : Chars) : Chars := '"' :: (escapeQuotes s ++ ['"'])

/-- Modelled from the spec: the repository contains no decoder for the quoted
argument echoed verbatim in the ACK diagnostic path; per the spec, string
arguments are wrapped in double quotes with internal quotes
backslash-escaped, so the inverse removes the backslash escaping each
internal quote. -/
def unescapeQuotes : Chars → Chars
  | [] => []
  | [c] => [c]
  | a :: b :: rest =>
    if a = '\\' ∧ b = '"' then '"' :: unescapeQuotes rest
    else a :: unescapeQuotes (b :: rest)

/-- Modelled from the spec: decoding a quoted argument from the verbatim
command-line echo strips the surrounding double quotes and unescapes the
internal quotes. -/
def decodeQuotedArg : Chars → Option Chars
  | [] => none
  | c :: rest =>
    if c = '"' ∧ rest.getLast? = some '"' then some (unescapeQuotes rest.dropLast)
    else none

/-- Embedding of `str.partition` for a one-character separator: split at the first
occurrence, `none` second component when absent. -/
def partitionAt (sep : Char) (l : Chars) : Chars × Option Chars :=
  match l.span (fun c => c != sep) with
  | (before, []) => (before, none)
  | (before, _ :: after) => (before, some after)

/-- Embedding of `str.rpartition` for a one-character separator: split at the last
occurrence, `none` when absent. -/
def rpartitionAt (sep : Char) (l : Chars) : Option (Chars × Chars) :=
  match l.reverse.span (fun c => c != sep) with
  | (_, []) => none
  | (afterRev, _ :: beforeRev) => some (beforeRev.reverse, afterRev.reverse)

/-- The netloc computed by `urlsplit` on the spec prefixed with two
slashes: the spec up to the
first `/`, `?` or `#`. -/
def netlocOf (spec : Chars) : Chars :=
  spec.takeWhile (fun c => c != '/' && c != '?' && c != '#')

/-- Embedding of `SplitResult.username`: with an `@` present, the userinfo (before the
last `@`) up to the first `:`; otherwise `none`. -/
def usernameOf (netloc : Chars) : Option Chars :=
  match rpartitionAt '@' netloc with
  | none => none
  | some (userinfo, _) => some (partitionAt ':' userinfo).1

/-- The host-and-port part of the netloc: everything after the last `@`. -/
def hostinfoOf (netloc : Chars) : Chars :=
  match rpartitionAt '@' netloc with
  | none => netloc
  | some (_, h) => h

/-- Embedding of `SplitResult.hostname`: the host part lowercased, `none` when empty (the
IPv6 bracket syntax is not modelled). -/
def hostnameOf (netloc : Chars) : Option Chars :=
  let host := (partitionAt ':' (hostinfoOf netloc)).1
  if host = [] then none else some (host.map Char.toLower)

/-- Embedding of `SplitResult.port`: the digits after the first `:` of the host part;
`none` when absent or empty. -/
def portOf (netloc : Chars) : Option Nat :=
  match (partitionAt ':' (hostinfoOf netloc)).2 with
  | none => none
  | some ds =>
    if ds ≠ [] ∧ ds.all Char.isDigit ∧ digitsToNat ds ≤ 65535 then
      some (digitsToNat ds)
    else none

/-- Python `a or b` on optional strings: a missing or empty `a` falls
through to `b`. -/
def pyOrS (a b : Option Chars) : Option Chars :=
  match a with
  | some s => if s = [] then b else some s
  | none => b

/-- Python `a or b` with an optional int `a` and an int `b`: `None` and `0`
fall through. -/
def pyOrN (a : Option Nat) (b : Nat) : Nat :=
  match a with
  | some n => if n = 0 then b else n
  | none => b

/-- Embedding of `Client.connect_to_server` (`src/ampd/client.py` lines 230-243, same at
`src/src/ampd/client.py` lines 227-240): the spec defaults to `$MPD_HOST` or
`localhost`, the netloc `[password@]host[:port]` is parsed, and the port and
password embedded in the spec take precedence over the arguments of the caller.
Returns the stored host, port and password. -/
def connect_to_server (host : Option Chars) (port : Nat) (password : Option Chars)
    (envMpdHost : Option Chars) : Option Chars × Nat × Option Chars :=
  let envDefault : Chars :=
    match envMpdHost with
    | some v => v
    | none => cs "localhost"
  let spec : Chars :=
    match host with
    | some h => if h = [] then envDefault else h
    | none => envDefault
  let netloc := netlocOf spec
  (hostnameOf netloc, pyOrN (portOf netloc) port, pyOrS (usernameOf netloc) password)

/-- Embedding of `client.Executor` as a node of the executor tree: an identity, whether
the client reference is still set (cleared on close), whether a disconnect
callback is registered, the requests it has logged, and its children. -/
inductive ExecTree where
  | node (id : Nat) (isOpen : Bool) (hasCb : Bool) (reqs : List Req)
      (children : List ExecTree)

/-- Ids of the requests `Executor.close` fails: the not-yet-done ones, in
order. -/
def failedIds (rs : List Req) : List Nat :=
  (rs.filter (fun r => !r.done)).map Req.rid

mutual
/-- Embedding of `Executor.close` (`src/src/ampd/client.py` lines 123-138): an executor
whose client reference is cleared returns at once with no effect; otherwise
the children are closed first, then the still-open requests of the executor are
failed with `ConnectionError`, the executor detaches from its parent and the
client reference and callbacks are cleared.  Returns the node after closing
and the ids of the requests failed, in order. -/
def closeExec : ExecTree → ExecTree × List Nat
  | .node i true _ rs kids =>
    (.node i false false (rs.map failReq) [], closeList kids ++ failedIds rs)
  | .node i false cb rs kids => (.node i false cb rs kids, [])

/-- Embedding of the loop closing the children one by one: every child is closed
in order and detaches. -/
def closeList : List ExecTree → List Nat
  | [] => []
  | t :: ts => (closeExec t).2 ++ closeList ts
end

mutual
/-- Embedding of `Executor._disconnect_cb` (`src/src/ampd/client.py` lines 156-160): the
children are notified first, then the own callback of the node fires when one is
registered.  Returns the list of callback firings in order, each with the
reason and the optional message. -/
def fanout : ExecTree → Nat → Option Chars → List (Nat × Nat × Option Chars)
  | .node i _ cb _ kids, r, m =>
    fanoutList kids r m ++ (if cb then [(i, r, m)] else [])

/-- Notification of a list of children in order. -/
def fanoutList : List ExecTree → Nat → Option Chars → List (Nat × Nat × Option Chars)
  | [], _, _ => []
  | t :: ts, r, m => fanout t r m ++ fanoutList ts r m
end

mutual
/-- Identities of the nodes carrying a disconnect callback, children before
their parent. -/
def cbIds : ExecTree → List Nat
  | .node i _ cb _ kids => cbIdsList kids ++ (if cb then [i] else [])

/-- Identities over a list of children in order. -/
def cbIdsList : List ExecTree → List Nat
  | [] => []
  | t :: ts => cbIds t ++ cbIdsList ts
end

/-- Embedding of `Client.disconnect_from_server` in the later revision
(`src/src/ampd/client.py` lines 274-296): a no-op when already disconnected;
while connecting only the connect task is cancelled; otherwise every
not-yet-done request of the in-flight queue and of the waiting list is
failed with `ConnectionError` and settled, the state drops to Disconnected,
and the disconnect callbacks fan out over the executor tree with the reason
and the optional message. -/
def disconnect_from_server (state : Nat) (active_queue waiting_list : List Req)
    (root : ExecTree) (reason : Nat) (message : Option Chars) :
    Nat × List Req × List Req × List (Nat × Nat × Option Chars) :=
  if state = STATE_DISCONNECTED then (state, active_queue, waiting_list, [])
  else if state = STATE_CONNECTING then
    (STATE_DISCONNECTED, active_queue, waiting_list, fanout root reason message)
  else
    (STATE_DISCONNECTED, active_queue.map failReq, waiting_list.map failReq,
      fanout root reason message)

/-- Embedding of `Executor._log_request` (`src/src/ampd/client.py` lines 171-180) for an
active request: when the client reference of the executor is cleared,
`ConnectionError` is raised before the client is reached, hence before
anything is written to the wire; otherwise the request goes to
`Client._send`. -/
def log_request (execOpen : Bool) (isIdleReq : Bool) (cmd : Chars) (rid : Nat)
    (c : ClientS) : Except AmpdE ClientS :=
  if execOpen then sendReq isIdleReq cmd rid c else .error .connectionError

/-! Helper lemmas. -/

theorem getLast_app_single (l : Chars) (a : Char) : (l ++ [a]).getLast? = some a := by
  induction l with
  | nil => rfl
  | cons c t ih =>
    rw [List.cons_append]
    cases h : t ++ [a] with
    | nil => exact absurd h (by simp)
    | cons d u => rw [List.getLast?_cons_cons, ← h, ih]

theorem dropLast_app_single (l : Chars) (a : Char) : (l ++ [a]).dropLast = l := by
  simp

/-- The head of an escaped argument is never an unescaped quote. -/
theorem escapeQuotes_head (t : Chars) : (escapeQuotes t).head? ≠ some '"' := by
  cases t with
  | nil => simp [escapeQuotes]
  | cons d u =>
    by_cases hd : d = '"'
    · subst hd
      rw [escapeQuotes, if_pos rfl]
      simp only [List.head?_cons, ne_eq, Option.some.injEq]
      decide
    · rw [escapeQuotes, if_neg hd]
      simp only [List.head?_cons, ne_eq, Option.some.injEq]
      exact hd

/-- Unescaping inverts escaping. -/
theorem unescape_escape (s : Chars) : unescapeQuotes (escapeQuotes s) = s := by
  induction s with
  | nil => rfl
  | cons c t ih =>
    by_cases hc : c = '"'
    · subst hc
      rw [escapeQuotes, if_pos rfl]
      have e3 : unescapeQuotes ('\\' :: '"' :: escapeQuotes t)
          = '"' :: unescapeQuotes (escapeQuotes t) := by
        simp [unescapeQuotes]
      rw [e3, ih]
    · rw [escapeQuotes, if_neg hc]
      cases h : escapeQuotes t with
      | nil =>
        rw [h] at ih
        simp only [unescapeQuotes] at ih ⊢
        rw [← ih]
      | cons d u =>
        have hd : d ≠ '"' := fun hdq => escapeQuotes_head t (by simp [h, hdq])
        have e3 : unescapeQuotes (c :: d :: u) = c :: unescapeQuotes (d :: u) := by
          simp only [unescapeQuotes]
          rw [if_neg (fun hab => hd hab.2)]
        rw [h] at ih
        rw [e3, ih]

/-! Claim theorems. -/

/-- Claim C5: command argument quoting is a reversible encoding: for every
string argument (in particular one containing both a double quote and a
backslash), wrapping the argument in double quotes with internal quotes
backslash-escaped (`RequestCommand.__init__`) and then decoding the verbatim
echo of that quoted argument in the ACK diagnostic path reproduces the
original argument text. -/
theorem quoting_roundtrip :
    (∀ s : Chars, decodeQuotedArg (quoteArg s) = some s) ∧
    decodeQuotedArg (quoteArg (cs "a\"b\\c")) = some (cs "a\"b\\c") := by
  have h : ∀ s : Chars, decodeQuotedArg (quoteArg s) = some s := by
    intro s
    rw [quoteArg, decodeQuotedArg]
    rw [if_pos ⟨rfl, getLast_app_single _ _⟩]
    rw [dropLast_app_single, unescape_escape]
  exact ⟨h, h _⟩

/-- Claim C9: resolving a request is idempotent at the result-setting
interface: `Request.set_result` on a request that is already done (resolved,
failed or cancelled) is a no-op that leaves the existing outcome
unchanged. -/
theorem set_result_idempotent (r : Req) (v : Nat) (h : r.done = true) :
    Req.set_result r v = r := by
  simp [Req.set_result, h]

/-- Witness for C9 at a request already resolved with a value. -/
theorem set_result_idempotent_witness :
    Req.set_result ⟨1, some (.val 7)⟩ 9 = ⟨1, some (.val 7)⟩ :=
  set_result_idempotent ⟨1, some (.val 7)⟩ 9 (by decide)

/-- Claim C6: a passive request issued with a mask already satisfied by
the current connection state (the CONNECT bit when connected, the IDLE bit
when idle, per `Client._current_events` of `src/ampd/client.py`) resolves
immediately with the intersection of the mask and the current-state events,
and the client state, in particular the wire, is untouched. -/
theorem wait_immediate (c : ClientS) (rid mask : Nat)
    (h : currentEvents c.state &&& mask ≠ 0) :
    waitOp rid mask c = (some (currentEvents c.state &&& mask), c) := by
  simp [waitOp, h]

/-- Witness for C6: a CONNECT subscription while connected and idle. -/
theorem wait_immediate_witness :
    waitOp 3 EVENT_CONNECT ⟨STATE_IDLE, [], [], [], []⟩
      = (some (currentEvents STATE_IDLE &&& EVENT_CONNECT),
         ⟨STATE_IDLE, [], [], [], []⟩) :=
  wait_immediate ⟨STATE_IDLE, [], [], [], []⟩ 3 EVENT_CONNECT (by decide)

theorem runP_app (a b : List PStep) (s : SubState) :
    runP (a ++ b) s = runP b (runP a s) := by
  induction a generalizing s with
  | nil => rfl
  | cons p ps ih =>
    simp only [List.cons_append, runP]
    exact ih (stepP p s)

theorem stepP_benign (mask : Nat) (p : PStep) (hb : benignStep mask p = true) :
    stepP p (initP mask) = initP mask := by
  cases p with
  | timerFire => simp [benignStep] at hb
  | notify e =>
    simp only [benignStep, beq_iff_eq] at hb
    simp [stepP, initP, hb]
  | fail er => simp [benignStep] at hb

theorem runP_benign (mask : Nat) (tr : List PStep)
    (h : ∀ p ∈ tr, benignStep mask p = true) :
    runP tr (initP mask) = initP mask := by
  induction tr with
  | nil => rfl
  | cons p ps ih =>
    rw [runP, stepP_benign mask p (h p (by simp))]
    exact ih fun q hq => h q (by simp [hq])

theorem stepP_frozen (p : PStep) (s : SubState) (hr : s.result.isSome = true)
    (ha : s.timerArmed = false) : stepP p s = s := by
  cases p with
  | timerFire => simp [stepP, ha]
  | notify e =>
    by_cases hg : s.event_mask &&& e ≠ 0 <;> simp [stepP, hg, setResultP, hr]
  | fail er => simp [stepP, setExcP, hr]

/-- Claim C7: a subscription with a timeout whose mask is matched by no
event before the timer fires resolves with exactly the TIMEOUT bit; a
resolved subscription has its timer disarmed and is inert ever after, and
any step that resolves a pending subscription disarms the timer. -/
theorem timeout_subscription (mask : Nat) (tr : List PStep)
    (h : ∀ p ∈ tr, benignStep mask p = true) :
    (runP (tr ++ [.timerFire]) (initP mask)).result = some (.ok EVENT_TIMEOUT) ∧
    (∀ (s : SubState) (ps : List PStep),
        s.result.isSome = true → s.timerArmed = false → runP ps s = s) ∧
    (∀ (p : PStep) (s : SubState), (stepP p s).result.isSome = true →
        (stepP p s).timerArmed = false ∨ s.result.isSome = true) := by
  refine ⟨?_, ?_, ?_⟩
  · rw [runP_app, runP_benign mask tr h]
    simp [runP, stepP, initP, setResultP]
  · intro s ps hr ha
    induction ps with
    | nil => rfl
    | cons p ps ih => rw [runP, stepP_frozen p s hr ha]; exact ih
  · intro p s hdone
    by_cases hr : s.result.isSome = true
    · exact Or.inr hr
    · left
      simp only [Bool.not_eq_true] at hr
      cases p with
      | timerFire =>
        by_cases harm : s.timerArmed = true
        · simp [stepP, harm, setResultP, hr]
        · simp only [stepP, if_neg harm] at hdone
          rw [hr] at hdone
          exact absurd hdone (by decide)
      | notify e =>
        by_cases hg : s.event_mask &&& e ≠ 0
        · simp [stepP, hg, setResultP, hr]
        · simp only [stepP, if_neg hg] at hdone
          rw [hr] at hdone
          exact absurd hdone (by decide)
      | fail er => simp [stepP, setExcP, hr]

/-- Witness for C7: a PLAYER subscription, a non-matching MIXER
notification, then the timer fires. -/
theorem timeout_subscription_witness :
    (runP ([.notify EVENT_MIXER] ++ [.timerFire]) (initP EVENT_PLAYER)).result
      = some (.ok EVENT_TIMEOUT) :=
  (timeout_subscription EVENT_PLAYER [.notify EVENT_MIXER] (by decide)).1

theorem stepC_send_proj (i : Bool) (cmd : Chars) (rid : Nat) (c : ClientS) :
    (stepC (.send i cmd rid) c).resolved = c.resolved ∧
    (stepC (.send i cmd rid) c).active_queue
      = c.active_queue ++ (if c.state &&& FLAG_CONNECTED = 0 then [] else [rid]) := by
  by_cases h : c.state &&& FLAG_CONNECTED = 0
  · simp [stepC, sendReq, h]
  · cases i <;> by_cases h2 : c.state &&& FLAG_ACTIVE = 0 <;>
      simp [stepC, sendReq, h, h2]

theorem stepC_send_ids (i : Bool) (cmd : Chars) (rid : Nat) (c : ClientS) :
    (stepC (.send i cmd rid) c).resolved.map Prod.fst
        ++ (stepC (.send i cmd rid) c).active_queue
      = c.resolved.map Prod.fst ++ c.active_queue
        ++ (if c.state &&& FLAG_CONNECTED = 0 then [] else [rid]) := by
  have h := stepC_send_proj i cmd rid c
  rw [h.1, h.2, List.append_assoc]

theorem stepC_reply_ids (b : List Chars) (c : ClientS) :
    (stepC (.reply b) c).resolved.map Prod.fst
        ++ (stepC (.reply b) c).active_queue
      = c.resolved.map Prod.fst ++ c.active_queue := by
  cases hq : c.active_queue with
  | nil => simp [stepC, processReply, hq]
  | cons r rest => simp [stepC, processReply, hq]

/-- Claim C1: requests are resolved in exactly the order they were written
to the wire: over any interleaving of sends and reply blocks the resolution
log followed by the still-in-flight queue is the write order, and each reply
block resolves precisely the request at the head of the in-flight queue. -/
theorem fifo_order :
    (∀ (ops : List COp) (c : ClientS),
        (runC ops c).resolved.map Prod.fst ++ (runC ops c).active_queue
          = c.resolved.map Prod.fst ++ c.active_queue ++ writtenIds ops c) ∧
    (∀ (b : List Chars) (c : ClientS),
        (processReply b c).resolved
          = c.resolved ++ (c.active_queue.take 1).map (fun r => (r, b))) := by
  constructor
  · intro ops
    induction ops with
    | nil => intro c; simp [runC, writtenIds]
    | cons op ops ih =>
      intro c
      cases op with
      | send i cmd rid =>
        simp only [runC, writtenIds]
        rw [ih (stepC (.send i cmd rid) c), stepC_send_ids, List.append_assoc]
      | reply b =>
        simp only [runC, writtenIds]
        rw [ih (stepC (.reply b) c), stepC_reply_ids]
        simp
  · intro b c
    cases hq : c.active_queue with
    | nil => simp [processReply, hq]
    | cons r rest => simp [processReply, hq]

/-- Claim C2: an active (non-idle) request sent in the Idle state writes
exactly one `noidle` line immediately before its own command line and sets
FLAG_ACTIVE; in the Active state no `noidle` is written; and the
outstanding idle request, being ahead in the in-flight queue, has its reply
consumed and resolved before the reply of the new command. -/
theorem noidle_on_send (c : ClientS) (cmd : Chars) (rid idleRid : Nat) :
    (c.state = STATE_IDLE →
      sendReq false cmd rid c
        = .ok { c with state := STATE_ACTIVE,
                       wire := c.wire ++ [cs "noidle", cmd],
                       active_queue := c.active_queue ++ [rid] }) ∧
    (c.state = STATE_ACTIVE →
      sendReq false cmd rid c
        = .ok { c with wire := c.wire ++ [cmd],
                       active_queue := c.active_queue ++ [rid] }) ∧
    (c.state = STATE_IDLE → c.active_queue = [idleRid] →
      ∀ c1 b1 b2, sendReq false cmd rid c = .ok c1 →
        (processReply b1 c1).resolved = c.resolved ++ [(idleRid, b1)] ∧
        (processReply b2 (processReply b1 c1)).resolved
          = c.resolved ++ [(idleRid, b1), (rid, b2)]) := by
  refine ⟨?_, ?_, ?_⟩
  · intro h
    simp only [sendReq, h]
    rw [if_neg (by decide)]
    simp only [Bool.false_eq_true, if_false]
    rw [if_pos (by decide)]
    simp [STATE_IDLE, STATE_ACTIVE, FLAG_CONNECTED, FLAG_ACTIVE]
  · intro h
    simp only [sendReq, h]
    rw [if_neg (by decide)]
    simp only [Bool.false_eq_true, if_false]
    rw [if_neg (by decide)]
    rw [h]
  · intro h hq
    intro c1 b1 b2 hsend
    simp only [sendReq, h, hq] at hsend
    rw [if_neg (by decide)] at hsend
    simp only [Bool.false_eq_true, if_false] at hsend
    rw [if_pos (by decide)] at hsend
    simp only [Except.ok.injEq] at hsend
    subst hsend
    simp [processReply]

/-- Witness for C2: sending `status` while idle with the idle request
outstanding. -/
theorem noidle_on_send_witness :
    sendReq false (cs "status") 7 ⟨STATE_IDLE, [], [5], [], []⟩
      = .ok ⟨STATE_ACTIVE, [cs "noidle", cs "status"], [5, 7], [], []⟩ ∧
    (processReply [cs "changed: player", cs "OK"]
        ⟨STATE_ACTIVE, [cs "noidle", cs "status"], [5, 7], [], []⟩).resolved
      = [(5, [cs "changed: player", cs "OK"])] := by
  have h := noidle_on_send ⟨STATE_IDLE, [], [5], [], []⟩ (cs "status") 7 5
  have h1 := h.1 rfl
  refine ⟨by simpa using h1, ?_⟩
  have h3 := (h.2.2 rfl rfl _ [cs "changed: player", cs "OK"] [cs "OK"] h1).1
  simpa using h3

theorem runCmd_ok (payload : List Chars) (rest : List Chars) (cmdline : Chars)
    (acc : List (Chars × Chars)) (hp : ∀ l ∈ payload, goodField l) :
    runCmdParser LIST_SUCCESS cmdline (payload ++ LIST_SUCCESS :: rest) acc
      = some (.ok (acc.reverse ++ payload.map decodeFieldLine), rest) := by
  induction payload generalizing acc with
  | nil =>
    have hm : matchErrorRe LIST_SUCCESS = none := rfl
    simp [runCmdParser, hm]
  | cons l p ih =>
    obtain ⟨hm, hs, hsp⟩ := hp l (by simp)
    cases hkv : splitField l with
    | none => rw [hkv] at hsp; simp at hsp
    | some kv =>
      obtain ⟨k, v⟩ := kv
      simp only [List.cons_append, runCmdParser, hm, if_neg hs, hkv, List.append_eq]
      rw [ih ((k.map normChar, v) :: acc) (fun x hx => hp x (by simp [hx]))]
      simp [decodeFieldLine, hkv, List.append_assoc]

theorem runCmd_ack (ack : Chars) (rest : List Chars) (cmdline : Chars)
    (acc : List (Chars × Chars)) (e n : Nat) (cm ms : Chars)
    (hm : matchErrorRe ack = some (e, n, cm, ms)) :
    runCmdParser LIST_SUCCESS cmdline (ack :: rest) acc
      = some (.error ⟨e, n, cm, ms, cmdline⟩, rest) := by
  simp only [runCmdParser, hm]

theorem runList_pre (payloads : List (List Chars)) (pre post : List Chars)
    (tail : List Chars) (acc : List (List (Chars × Chars)))
    (hlen : pre.length = payloads.length)
    (hp : ∀ p ∈ payloads, ∀ l ∈ p, goodField l) :
    runListParser (pre ++ post) (encodeMembers payloads ++ tail) acc
      = runListParser post tail
          ((payloads.map (fun p => p.map decodeFieldLine)).reverse ++ acc) := by
  induction payloads generalizing pre acc with
  | nil =>
    cases pre with
    | nil => simp [encodeMembers, catLists]
    | cons a b => simp at hlen
  | cons p ps ih =>
    cases pre with
    | nil => simp at hlen
    | cons cmd pres =>
      have he : encodeMembers (p :: ps) ++ tail
          = p ++ (LIST_SUCCESS :: (encodeMembers ps ++ tail)) := by
        simp [encodeMembers, catLists]
      rw [List.cons_append, he]
      simp only [runListParser]
      rw [runCmd_ok p _ cmd [] (hp p (by simp))]
      simp only [List.reverse_nil, List.nil_append]
      rw [ih pres ((p.map decodeFieldLine) :: acc) (by simpa using hlen)
        (fun q hq => hp q (by simp [hq]))]
      simp [List.append_assoc]

/-- Claim C4: a command list whose first failing member is at index j (with
j earlier well-formed payloads) resolves with the `ReplyError` of that member,
carrying the ACK-reported error code and failing index and the own
command line; the members before j are each decoded exactly once and no
member from j on contributes a decoded result. -/
theorem command_list_first_error (pre post : List Chars) (cj : Chars)
    (payloads : List (List Chars)) (ack : Chars) (junk : List Chars)
    (e n : Nat) (cm ms : Chars)
    (hlen : pre.length = payloads.length)
    (hp : ∀ p ∈ payloads, ∀ l ∈ p, goodField l)
    (hack : matchErrorRe ack = some (e, n, cm, ms)) :
    runListParser (pre ++ cj :: post) (encodeMembers payloads ++ ack :: junk) []
      = (.replyError ⟨e, n, cm, ms, cj⟩,
         payloads.map (fun p => p.map decodeFieldLine)) := by
  rw [runList_pre payloads pre (cj :: post) (ack :: junk) [] hlen hp]
  simp only [runListParser]
  rw [runCmd_ack ack junk cj [] e n cm ms hack]
  simp

/-- Witness for C4: a two-command list whose second member fails with
`ACK [5@1] ...`; the first member is decoded once and the batch fails with
the command line of the member and the reported index 1. -/
theorem command_list_first_error_witness :
    runListParser ([cs "status"] ++ cs "bad_cmd" :: [])
        (encodeMembers [[cs "volume: 50"]] ++ cs "ACK [5@1] \x7bbad\x7d boom" :: []) []
      = (.replyError ⟨5, 1, cs "bad", cs "boom", cs "bad_cmd"⟩,
         [[cs "volume: 50"]].map (fun p => p.map decodeFieldLine)) ∧
    [[cs "volume: 50"]].map (fun p => p.map decodeFieldLine)
      = [[(cs "volume", cs "50")]] :=
  ⟨command_list_first_error [cs "status"] [] (cs "bad_cmd") [[cs "volume: 50"]]
      (cs "ACK [5@1] \x7bbad\x7d boom") [] 5 1 (cs "bad") (cs "boom")
      (by decide) (by decide) (by decide),
   by decide⟩

mutual
theorem fanout_eq (t : ExecTree) (r : Nat) (m : Option Chars) :
    fanout t r m = (cbIds t).map (fun i => (i, r, m)) := by
  cases t with
  | node i o cb rs kids =>
    simp only [fanout, cbIds, List.map_append]
    rw [fanoutList_eq kids r m]
    cases cb <;> simp

theorem fanoutList_eq (ts : List ExecTree) (r : Nat) (m : Option Chars) :
    fanoutList ts r m = (cbIdsList ts).map (fun i => (i, r, m)) := by
  cases ts with
  | nil => simp [fanoutList, cbIdsList]
  | cons t ts2 =>
    simp only [fanoutList, cbIdsList, List.map_append]
    rw [fanout_eq t r m, fanoutList_eq ts2 r m]
end

theorem fanout_fst (t : ExecTree) (r : Nat) (m : Option Chars) :
    (fanout t r m).map Prod.fst = cbIds t := by
  rw [fanout_eq, List.map_map]
  have hcomp : (Prod.fst ∘ fun i : Nat => (i, r, m)) = id := rfl
  rw [hcomp, List.map_id]

/-- Claim C3: disconnecting while connected fails every not-yet-done request
of the in-flight queue and of the waiting list with `ConnectionError`
(leaving already-done requests untouched), and the disconnect callback
fan-out over the executor tree fires each registered callback exactly once,
with the reason code and the optional message. -/
theorem disconnect_resolves_all (state : Nat) (aq wl : List Req) (root : ExecTree)
    (reason : Nat) (msg : Option Chars)
    (hc : state &&& FLAG_CONNECTED ≠ 0) :
    disconnect_from_server state aq wl root reason msg
      = (STATE_DISCONNECTED, aq.map failReq, wl.map failReq,
         fanout root reason msg) ∧
    (∀ r ∈ aq ++ wl, r.done = false →
        (failReq r).outcome = some (.exc .connectionError)) ∧
    (∀ r ∈ aq ++ wl, r.done = true → failReq r = r) ∧
    fanout root reason msg = (cbIds root).map (fun i => (i, reason, msg)) ∧
    ((cbIds root).Nodup → ∀ i ∈ cbIds root,
        ((fanout root reason msg).map Prod.fst).count i = 1) := by
  have h0 : ¬state = STATE_DISCONNECTED := by
    intro h
    exact hc (by rw [h]; decide)
  have h2 : ¬state = STATE_CONNECTING := by
    intro h
    exact hc (by rw [h]; decide)
  refine ⟨?_, ?_, ?_, fanout_eq root reason msg, ?_⟩
  · rw [disconnect_from_server, if_neg h0, if_neg h2]
  · intro r _ hr
    simp [failReq, hr]
  · intro r _ hr
    simp [Req.done] at hr
    simp [failReq, Req.done, hr]
  · intro hn i hi
    rw [fanout_fst]
    exact List.count_eq_one_of_mem hn hi

/-- Witness for C3: an active connection with three in-flight requests (one
already done) and one pending subscription over a two-node executor tree. -/
theorem disconnect_resolves_all_witness :
    disconnect_from_server STATE_ACTIVE [⟨1, none⟩, ⟨2, some (.val 0)⟩, ⟨3, none⟩]
        [⟨4, none⟩] (.node 0 true true [] [.node 1 true true [] []])
        DISCONNECT_ERROR none
      = (STATE_DISCONNECTED,
         [⟨1, none⟩, ⟨2, some (.val 0)⟩, ⟨3, none⟩].map failReq,
         [⟨4, none⟩].map failReq,
         fanout (.node 0 true true [] [.node 1 true true [] []])
           DISCONNECT_ERROR none) ∧
    (failReq ⟨1, none⟩).outcome = some (.exc .connectionError) := by
  have h := disconnect_resolves_all STATE_ACTIVE
    [⟨1, none⟩, ⟨2, some (.val 0)⟩, ⟨3, none⟩] [⟨4, none⟩]
    (.node 0 true true [] [.node 1 true true [] []]) DISCONNECT_ERROR none
    (by decide)
  exact ⟨h.1, h.2.1 ⟨1, none⟩ (by simp) rfl⟩

/-- Claim C10: executor closing is idempotent and terminal: close on an
already-closed executor returns at once with no effect (so a second close
does nothing); a first close produces the trace of the recursively closed
children before the failure of the own requests of the executor, failing each
still-open request with `ConnectionError`; and after close, logging any
request from that executor raises `ConnectionError` before anything is sent
towards the wire. -/
theorem executor_close :
    (∀ i cb rs kids, closeExec (.node i false cb rs kids)
        = (.node i false cb rs kids, [])) ∧
    (∀ t : ExecTree, closeExec (closeExec t).1 = ((closeExec t).1, [])) ∧
    (∀ i cb rs kids, closeExec (.node i true cb rs kids)
        = (.node i false false (rs.map failReq) [],
           closeList kids ++ failedIds rs)) ∧
    (∀ kids, closeList kids = catLists (kids.map (fun t => (closeExec t).2))) ∧
    (∀ r : Req, r.done = false →
        (failReq r).outcome = some (.exc .connectionError)) ∧
    (∀ isIdleReq cmd rid cli, log_request false isIdleReq cmd rid cli
        = .error .connectionError) := by
  refine ⟨?_, ?_, ?_, ?_, ?_, ?_⟩
  · intro i cb rs kids
    simp [closeExec]
  · intro t
    cases t with
    | node i o cb rs kids => cases o <;> simp [closeExec]
  · intro i cb rs kids
    simp [closeExec]
  · intro kids
    induction kids with
    | nil => simp [closeList, catLists]
    | cons t ts ih => simp [closeList, catLists, ih]
  · intro r hr
    simp [failReq, hr]
  · intro isIdleReq cmd rid cli
    simp [log_request]

/-- Witness for C10: closing an open executor with one pending request; the
request fails with `ConnectionError`, and a request logged on the closed
executor errors out. -/
theorem executor_close_witness :
    closeExec (.node 0 true true [⟨1, none⟩] [])
      = (.node 0 false false ([⟨1, none⟩].map failReq) [],
         closeList [] ++ failedIds [⟨1, none⟩]) ∧
    (failReq ⟨1, none⟩).outcome = some (.exc .connectionError) ∧
    log_request false false (cs "status") 9 ⟨STATE_ACTIVE, [], [], [], []⟩
      = .error .connectionError :=
  ⟨executor_close.2.2.1 0 true [⟨1, none⟩] [],
   executor_close.2.2.2.2.1 ⟨1, none⟩ rfl,
   executor_close.2.2.2.2.2 false (cs "status") 9 ⟨STATE_ACTIVE, [], [], [], []⟩⟩

theorem connect_some (sp : Chars) (pd : Nat) (pw envH : Option Chars)
    (h : ¬sp = []) :
    connect_to_server (some sp) pd pw envH
      = (hostnameOf (netlocOf sp), pyOrN (portOf (netlocOf sp)) pd,
         pyOrS (usernameOf (netlocOf sp)) pw) := by
  simp [connect_to_server, h]

/-- Claim C8: connection-spec parsing: `bob@host:7700` with caller default
port 6600 yields host `host`, port 7700 and password `bob`; the port and
password embedded in the spec take precedence over the defaults of the caller;
and with no spec the host falls back to the environment-provided default. -/
theorem connect_spec_parsing :
    (∀ envH pd pw, connect_to_server (some (cs "bob@host:7700")) pd pw envH
        = (some (cs "host"), 7700, some (cs "bob"))) ∧
    (∀ sp pd pw envH q, sp ≠ [] → portOf (netlocOf sp) = some q → q ≠ 0 →
        (connect_to_server (some sp) pd pw envH).2.1 = q) ∧
    (∀ sp pd pw envH u, sp ≠ [] → usernameOf (netlocOf sp) = some u → u ≠ [] →
        (connect_to_server (some sp) pd pw envH).2.2 = some u) ∧
    (∀ pd pw envS, (connect_to_server none pd pw (some envS)).1
        = hostnameOf (netlocOf envS)) := by
  refine ⟨?_, ?_, ?_, ?_⟩
  · intro envH pd pw
    rw [connect_some _ _ _ _ (by decide)]
    rw [show portOf (netlocOf (cs "bob@host:7700")) = some 7700 from by decide]
    rw [show hostnameOf (netlocOf (cs "bob@host:7700")) = some (cs "host") from by decide]
    rw [show usernameOf (netlocOf (cs "bob@host:7700")) = some (cs "bob") from by decide]
    simp only [pyOrN, pyOrS]
    rw [if_neg (by decide), if_neg (by decide)]
  · intro sp pd pw envH q h0 hq hq0
    rw [connect_some _ _ _ _ h0]
    simp only [hq, pyOrN]
    rw [if_neg hq0]
  · intro sp pd pw envH u h0 hu hu0
    rw [connect_some _ _ _ _ h0]
    simp only [hu, pyOrS]
    rw [if_neg hu0]
  · intro pd pw envS
    rfl

/-- Witness for C8: the literal scenario `bob@host:7700` with default port
6600, and a port-precedence instance. -/
theorem connect_spec_parsing_witness :
    connect_to_server (some (cs "bob@host:7700")) 6600 none none
      = (some (cs "host"), 7700, some (cs "bob")) ∧
    (connect_to_server (some (cs "host2:7000")) 6600 none none).2.1 = 7000 :=
  ⟨connect_spec_parsing.1 none 6600 none,
   connect_spec_parsing.2.1 (cs "host2:7000") 6600 none none 7000
     (by decide) (by decide) (by decide)⟩

end Ampd
